import Mathlib

/-!
Shallow embedding of the content-based movie recommender in `app/recommender.py`
(class `ContentRecommender`, the module-level cache `ensure_model`, and
`recommend_for_user`), together with the ORM rows it reads (`app/models.py`).

Modelling conventions:
* Python floats are modelled as exact rationals (`ℚ`); decimal literals such as
  `0.9`, `0.1` and `1e-12` are taken at their decimal value.
* SQLAlchemy rows become plain structures; nullable columns become `Option`.
* Mutation of the process-wide recommender is modelled by explicit state
  passing: `fit` and `ensure_model` return the new `ContentRecommender` state.
* A Python exception is modelled as `none` in an `Option` result.
* The external vectorizer (`sklearn.TfidfVectorizer`) is a parameter of type
  `Vectorizer`; a faithful executable model of its counting front end
  (`countVectorize`) is given further below for the claims that depend on it.
-/

namespace RecSys

/-- A document vector: one rational entry per vocabulary term. -/
abbrev Vec := List ℚ

/-- Row of the `movies` table (`app/models.py`): `id` is the integer primary
key, `title` is non-null in the schema but may still be the empty string,
`genres`/`overview`/`year`/`poster_url` are nullable, and `popularity` is a
nullable float with default `0.0`. -/
structure Movie where
  id : Int
  title : Option String
  genres : Option String
  overview : Option String
  year : Option Int
  poster_url : Option String
  popularity : Option ℚ
deriving DecidableEq, Repr

/-- Row of the `ratings` table: composite primary key `(user_id, movie_id)`,
non-null float `rating`. -/
structure Rating where
  user_id : Int
  movie_id : Int
  rating : ℚ
deriving DecidableEq, Repr

/-- The database contents visible to `recommender.py`: the `movies` table (in
query order) and the `ratings` table. -/
structure Db where
  movies : List Movie
  ratings : List Rating
deriving Repr

/-- State of a `ContentRecommender` instance: the `movie_ids` list (index ↔
movie id mapping) and the TF-IDF document-term matrix, `none` before the first
`fit` and after a `fit` on an empty catalog. -/
structure ContentRecommender where
  movie_ids : List Int
  tfidf_matrix : Option (List Vec)
deriving DecidableEq, Repr

/-- The external vectorizer (`TfidfVectorizer.fit_transform`): maps a corpus of
documents to a matrix with one row per document, or fails (`none` models a
raised `ValueError`, which sklearn produces on an empty vocabulary). -/
abbrev Vectorizer := List String → Option (List Vec)

/-- The `ContentRecommender()` constructed at import time for the module-level
cache `_recommender`: no ids, no matrix. -/
def initialRecommender : ContentRecommender := ⟨[], none⟩

/-- Python `s or ""` on an optional string: `None` (and `""` itself) becomes
`""`; as a value this is exactly `Option.getD "" ` spelled out. -/
def orBlank (s : Option String) : String :=
  match s with
  | none => ""
  | some t => t

/-- `ContentRecommender._build_corpus_row`: join title, genres and overview
(each `or ""`) with single spaces. -/
def build_corpus_row (m : Movie) : String :=
  String.intercalate " " [orBlank m.title, orBlank m.genres, orBlank m.overview]

/-- `ContentRecommender.fit`: store `[m.id for m in movies]`, build the corpus,
leave the matrix `None` for an empty corpus, otherwise run the vectorizer.  A
vectorizer failure propagates (`none`). -/
def ContentRecommender.fit (V : Vectorizer) (_self : ContentRecommender)
    (movies : List Movie) : Option ContentRecommender :=
  let ids := movies.map (fun m => m.id)
  let corpus := movies.map build_corpus_row
  if corpus.length = 0 then
    some ⟨ids, none⟩
  else
    match V corpus with
    | none => none
    | some M => some ⟨ids, some M⟩

/-- Index of the LAST occurrence of `mid` in `ids`, starting from `base`:
the Python dict comprehension `{mid: idx for idx, mid in enumerate(ids)}` lets
a later duplicate id overwrite an earlier one. -/
def idToIndexAux (ids : List Int) (mid : Int) (base : Nat) : Option Nat :=
  match ids with
  | [] => none
  | i :: rest =>
    match idToIndexAux rest mid (base + 1) with
    | some j => some j
    | none => if i = mid then some base else none

/-- `id_to_index[mid]` lookup: position of `mid` in the model's id list
(last occurrence, per Python dict semantics), if present. -/
def idToIndex (ids : List Int) (mid : Int) : Option Nat :=
  idToIndexAux ids mid 0

/-- The float literal `1e-12` (taken at its decimal value). -/
def eps : ℚ := 1 / 1000000000000

/-- The `indices` list of `scores_for_movies`:
`[id_to_index[mid] for mid in liked_movie_ids if mid in id_to_index]`. -/
def presentIndices (ids : List Int) (liked : List Int) : List Nat :=
  liked.filterMap (fun mid => idToIndex ids mid)

/-- Dot product of two vectors (zipping truncates to the shorter one; all
vectors compared in this development have equal length). -/
def dotProd (u v : Vec) : ℚ := ((u.zip v).map (fun p => p.1 * p.2)).sum

/-- `sklearn.metrics.pairwise.cosine_similarity` on rows of the TF-IDF matrix.
`TfidfVectorizer` L2-normalizes every nonzero row (`norm='l2'`), and
`cosine_similarity` re-normalizes its inputs mapping zero rows to zero rows, so
on rows of the fitted matrix it is exactly the dot product; the matrix entries
in this embedding are the post-normalization values. -/
def cosine_similarity (u v : Vec) : ℚ := dotProd u v

/-- `ContentRecommender.scores_for_movies`.  Returns the score dictionary as an
association list in `movie_ids` order (movie ids are primary keys, hence
distinct, so the Python dict built by the comprehension has exactly these
entries in this order).  `none` models a raised exception: scipy fancy-row
indexing out of range, the numpy `sims @ w` shape mismatch when a provided
`weights` list is longer than the filtered `indices`, and the `scores[i]`
IndexError when the matrix has fewer rows than ids (the latter two guards keep
the Python evaluation order: the matmul happens before the dict is built). -/
def ContentRecommender.scores_for_movies (self : ContentRecommender)
    (liked_movie_ids : List Int) (weights : Option (List ℚ)) :
    Option (List (Int × ℚ)) :=
  match self.tfidf_matrix with
  | none => some []
  | some M =>
    if self.movie_ids.isEmpty then some []
    else
      let indices := presentIndices self.movie_ids liked_movie_ids
      if indices.isEmpty then some []
      else if indices.any (fun j => decide (M.length ≤ j)) then none
      else
        let sims := M.map (fun row => indices.map (fun j => cosine_similarity row (M.getD j [])))
        let ws :=
          match weights with
          | none => List.replicate indices.length (1 : ℚ)
          | some w => w
        if ws.length ≠ indices.length then none
        else
          let w := ws.map (fun x => x / (ws.sum + eps))
          let scores := sims.map (fun srow => ((srow.zip w).map (fun p => p.1 * p.2)).sum)
          if M.length < self.movie_ids.length then none
          else
            some ((self.movie_ids.zip scores).filter
              (fun p => decide (p.1 ∉ liked_movie_ids)))

/-- The refit condition of `ensure_model`:
`(_recommender.tfidf_matrix is None) or (len(_recommender.movie_ids) != len(movies))`. -/
def needsRefit (r : ContentRecommender) (movies : List Movie) : Bool :=
  r.tfidf_matrix.isNone || decide (r.movie_ids.length ≠ movies.length)

/-- `ensure_model(db)`: lazily refit the module-level recommender when the
refit condition holds, otherwise return the cached state unchanged. -/
def ensure_model (V : Vectorizer) (r : ContentRecommender) (db : Db) :
    Option ContentRecommender :=
  if needsRefit r db.movies then r.fit V db.movies else some r

/-- Lookup in a Python dict built by inserting the pairs of `l` left to right:
a later binding of the same key overwrites an earlier one. -/
def dictGet {α : Type} (l : List (Int × α)) (k : Int) : Option α :=
  match l with
  | [] => none
  | p :: rest =>
    match dictGet rest k with
    | some v => some v
    | none => if p.1 = k then some p.2 else none

/-- Comparison backing `ORDER BY popularity DESC`: larger popularity first,
SQL `NULL` sorting below every value. -/
def popGe (x y : Option ℚ) : Bool :=
  match x, y with
  | none, none => true
  | none, some _ => false
  | some _, none => true
  | some a, some b => decide (b ≤ a)

/-- `db.query(Movie).order_by(Movie.popularity.desc())`. -/
def popularityRanked (db : Db) : List Movie :=
  db.movies.insertionSort (fun a b => popGe a.popularity b.popularity = true)

/-- The popularity branch shared by the cold-start and empty-score fallbacks:
`.limit(limit)` then `[(m, float(m.popularity or 0.0)) for m in movies]`. -/
def popTopWithScore (db : Db) (limit : Nat) : List (Movie × ℚ) :=
  ((popularityRanked db).take limit).map (fun m => (m, m.popularity.getD 0))

/-- `db.query(Rating).filter(Rating.user_id == user_id).all()`. -/
def userRatings (db : Db) (user_id : Int) : List Rating :=
  db.ratings.filter (fun rt => rt.user_id == user_id)

/-- `sorted(ratings, key=lambda r: r.rating, reverse=True)[: min(10, len(..))]`:
Python's sort is stable, as is `insertionSort` with this reflexive total
relation. -/
def topRatings (db : Db) (user_id : Int) : List Rating :=
  let ratings_sorted := (userRatings db user_id).insertionSort
    (fun a b => b.rating ≤ a.rating)
  ratings_sorted.take (min 10 ratings_sorted.length)

/-- `liked_ids = [r.movie_id for r in top]`. -/
def likedIds (db : Db) (user_id : Int) : List Int :=
  (topRatings db user_id).map (fun r => r.movie_id)

/-- `weights = [r.rating for r in top]`. -/
def likedWeights (db : Db) (user_id : Int) : List ℚ :=
  (topRatings db user_id).map (fun r => r.rating)

/-- `pop_map = {m.id: (m.popularity or 0.0) for m in db.query(Movie).all()}`. -/
def popMap (db : Db) : List (Int × ℚ) :=
  db.movies.map (fun m => (m.id, m.popularity.getD 0))

/-- Step 5 of `recommend_for_user`: blend every similarity score with the
popularity prior, `s * 0.9 + 0.1 * pop_map.get(mid, 0.0)`, then sort the pair
list by score descending in place (Python's stable sort). -/
def blendScores (db : Db) (score_map : List (Int × ℚ)) : List (Int × ℚ) :=
  (score_map.map (fun p =>
      (p.1, p.2 * (9 / 10) + (1 / 10) * ((dictGet (popMap db) p.1).getD 0)))).insertionSort
    (fun a b => b.2 ≤ a.2)

/-- Steps 6–7 of `recommend_for_user`: batch-resolve the top `limit` ids back
to `Movie` rows (`id_to_movie`), then walk the full sorted list keeping only
the ids that resolved, truncated to `limit`. -/
def resolveTop (db : Db) (blended : List (Int × ℚ)) (limit : Nat) :
    List (Movie × ℚ) :=
  let topIds := (blended.take limit).map (fun p => p.1)
  let id_to_movie := (db.movies.filter (fun m => topIds.contains m.id)).map
    (fun m => (m.id, m))
  (blended.filterMap (fun p => (dictGet id_to_movie p.1).map (fun m => (m, p.2)))).take limit

/-- `recommend_for_user(db, user_id, limit)`, with the cached model threaded
explicitly: the returned state is the module-level `_recommender` after the
call.  `none` models an exception escaping the call. -/
def recommend_for_user (V : Vectorizer) (r : ContentRecommender) (db : Db)
    (user_id : Int) (limit : Nat) :
    Option (ContentRecommender × List (Movie × ℚ)) :=
  if (userRatings db user_id).isEmpty then
    some (r, popTopWithScore db limit)
  else
    match ensure_model V r db with
    | none => none
    | some model =>
      match model.scores_for_movies (likedIds db user_id)
          (some (likedWeights db user_id)) with
      | none => none
      | some score_map =>
        if score_map.isEmpty then
          some (model, popTopWithScore db limit)
        else
          some (model, resolveTop db (blendScores db score_map) limit)

/-- Word characters of the default sklearn token pattern `\w\w+` (ASCII view:
letters, digits and underscore). -/
def isWordChar (c : Char) : Bool := c.isAlphanum || c = '_'

/-- Maximal runs of word characters in a character list, in order. -/
def wordRuns : List Char → List (List Char)
  | [] => []
  | c :: rest =>
    let rs := wordRuns rest
    if isWordChar c then
      match rest with
      | [] => [[c]]
      | d :: _ =>
        if isWordChar d then
          match rs with
          | run :: tail => (c :: run) :: tail
          | [] => [[c]]
        else [c] :: rs
    else rs

/-- Default sklearn analyzer front end: lowercase, then keep the maximal word
runs of length at least two (token pattern `\w\w+`). -/
def tokenize (doc : String) : List String :=
  ((wordRuns (doc.data.map Char.toLower)).filter (fun run => 2 ≤ run.length)).map
    (fun run => String.mk run)

/-- Token stream of one document after stop-word removal, extended with the
adjacent bigrams demanded by `ngram_range=(1,2)` (bigrams are formed after
stop-word removal and joined with a space, as sklearn does). -/
def analyze (stop : List String) (doc : String) : List String :=
  let toks := (tokenize doc).filter (fun t => !stop.contains t)
  toks ++ (toks.zip toks.tail).map (fun p => p.1 ++ " " ++ p.2)

/-- Lexicographic comparison of character lists (an executable rendering of the
alphabetical order sklearn sorts its learned vocabulary by). -/
def charListLe : List Char → List Char → Bool
  | [], _ => true
  | _ :: _, [] => false
  | a :: as, b :: bs => if a = b then charListLe as bs else decide (a < b)

/-- Alphabetical order on terms. -/
def termLe (a b : String) : Bool := charListLe a.data b.data

/-- Number of occurrences of term `t` in a token list. -/
def countOcc (t : String) (l : List String) : Nat :=
  (l.filter (fun s => s == t)).length

/-- Vocabulary learned by the vectorizer: the distinct terms of the corpus in
alphabetical order, capped at `max_features=20000` by decreasing corpus
frequency when more candidates exist (the cap never triggers on the corpora
examined in this development; its tie-breaking is not relied upon). -/
def vocabulary (stop : List String) (docs : List String) : List String :=
  let allTerms := (docs.map (analyze stop)).flatten
  let sortedTerms := allTerms.eraseDups.insertionSort (fun a b => termLe a b = true)
  if sortedTerms.length ≤ 20000 then sortedTerms
  else
    let ranked := (sortedTerms.map (fun t => (t, countOcc t allTerms))).insertionSort
      (fun a b => b.2 ≤ a.2)
    ((ranked.take 20000).map (fun p => p.1)).insertionSort (fun a b => termLe a b = true)

/-- Executable model of `TfidfVectorizer.fit_transform` for the properties
settled in this development.  It reproduces the counting front end (lowercase
tokenization, stop-word removal, unigrams + bigrams, learned vocabulary) and
sklearn's `ValueError` on an empty vocabulary (`none`).  The matrix entries
are the raw term counts: the subsequent tf-idf scaling multiplies column `t`
by `idf(t) = ln((1+n)/(1+df(t))) + 1 ≥ 1 > 0` and then L2-normalizes each row,
and neither step changes the shape of the matrix, which rows are all-zero, or
whether the call fails — the only aspects any claim below depends on.  The
stop list itself is data of sklearn, not of this repository, so the model is
parameterized by it. -/
def countVectorize (stop : List String) (docs : List String) : Option (List Vec) :=
  if (vocabulary stop docs).isEmpty then none
  else some (docs.map (fun d =>
    (vocabulary stop docs).map (fun t => (countOcc t (analyze stop d) : ℚ))))

/-- Spec-side rendering of the Similarity Scorer's weight handling: "if
`weights` is omitted, treat all liked items as equally weighted (weight 1.0
each)" — the effective raw weight list before normalization. -/
def effectiveWeights (weights : Option (List ℚ)) (k : Nat) : List ℚ :=
  weights.getD (List.replicate k 1)

/-- Spec-side rendering of the Similarity Scorer's score formula: "normalize
weights to sum to 1 (with a small epsilon added to the denominator)" and
"compute each catalog item's score as the weighted sum of its similarity to
each liked item".  `indices` are the matrix rows of the liked items, `ws` the
raw weights, `i` the catalog row being scored. -/
def specScore (M : List Vec) (indices : List Nat) (ws : List ℚ) (i : Nat) : ℚ :=
  ∑ j ∈ Finset.range indices.length,
    (ws.getD j 0 / (ws.sum + eps)) *
      cosine_similarity (M.getD i []) (M.getD (indices.getD j 0) [])

/-- Fixture: a movie with text content, id 1, popularity 5. -/
def mvSpaceWar : Movie := ⟨1, some "Space War", some "Sci-Fi", none, none, none, some 5⟩

/-- Fixture: a second movie with overlapping text, id 2, popularity 1. -/
def mvSpaceBattle : Movie :=
  ⟨2, some "Space Battle", some "Sci-Fi", none, none, none, some 1⟩

/-- Fixture: a two-movie catalog in which user 7 rated movie 1 with 5.0. -/
def dbBranch2 : Db := ⟨[mvSpaceWar, mvSpaceBattle], [⟨7, 1, 5⟩]⟩

/-- Fixture: the recommender state produced by fitting `dbBranch2`'s catalog
through the modelled vectorizer (`countVectorize []`), so that `ensure_model`
on `dbBranch2` returns it unchanged. -/
def recBranch2 : ContentRecommender :=
  ⟨[1, 2], some [[0, 0, 1, 1, 1, 1, 0, 1, 1, 1], [1, 1, 1, 1, 1, 1, 1, 0, 0, 0]]⟩

/-- Fixture: the score map `scores_for_movies` returns for user 7's liked
movies on `recBranch2`: movie 1 is excluded (self-exclusion), movie 2 scores
`dot(row₂, row₁) = 4` times the normalized weight `5 / (5 + eps)`. -/
def smBranch2 : List (Int × ℚ) := [(2, 4 * (5 / (5 + eps)))]

/-! ### General lemmas about the embedding -/

theorem idToIndexAux_spec (mid : Int) :
    ∀ (ids : List Int) (base j : Nat), idToIndexAux ids mid base = some j →
      base ≤ j ∧ j - base < ids.length ∧ ids.getD (j - base) 0 = mid := by
  intro ids
  induction ids with
  | nil => intro base j h; simp [idToIndexAux] at h
  | cons i rest ih =>
    intro base j h
    unfold idToIndexAux at h
    cases hrec : idToIndexAux rest mid (base + 1) with
    | some j2 =>
      rw [hrec] at h
      have hj : j2 = j := by simpa using h
      obtain ⟨h1, h2, h3⟩ := ih (base + 1) j2 hrec
      rw [hj] at h1 h2 h3
      refine ⟨by omega, by simp only [List.length_cons]; omega, ?_⟩
      have hsplit : j - base = (j - (base + 1)) + 1 := by omega
      rw [hsplit]
      simpa using h3
    | none =>
      rw [hrec] at h
      by_cases hi : i = mid
      · simp only [hi, if_pos rfl] at h
        have hb : base = j := by simpa using h
        rw [← hb]
        simp [hi]
      · simp [hi] at h

theorem idToIndex_spec {ids : List Int} {mid : Int} {j : Nat}
    (h : idToIndex ids mid = some j) : j < ids.length ∧ ids.getD j 0 = mid := by
  obtain ⟨h1, h2, h3⟩ := idToIndexAux_spec mid ids 0 j h
  rw [Nat.sub_zero] at h2 h3
  exact ⟨h2, h3⟩

theorem presentIndices_lt {ids liked : List Int} {j : Nat}
    (h : j ∈ presentIndices ids liked) : j < ids.length := by
  simp only [presentIndices, List.mem_filterMap] at h
  obtain ⟨mid, _, hm⟩ := h
  exact (idToIndex_spec hm).1

theorem dictGet_mem {α : Type} : ∀ {l : List (Int × α)} {k : Int} {v : α},
    dictGet l k = some v → (k, v) ∈ l := by
  intro l
  induction l with
  | nil => intro k v h; simp [dictGet] at h
  | cons p rest ih =>
    intro k v h
    unfold dictGet at h
    cases hrec : dictGet rest k with
    | some w =>
      rw [hrec] at h
      obtain rfl : w = v := by simpa using h
      exact List.mem_cons_of_mem _ (ih hrec)
    | none =>
      rw [hrec] at h
      by_cases hk : p.1 = k
      · rw [if_pos hk] at h
        have hv : p.2 = v := by simpa using h
        obtain ⟨p1, p2⟩ := p
        exact List.mem_cons.mpr (Or.inl (by rw [← hk, ← hv]))
      · simp [hk] at h

theorem sum_zip_mul : ∀ (xs ys : List ℚ),
    ((xs.zip ys).map (fun p => p.1 * p.2)).sum =
      ∑ j ∈ Finset.range xs.length, xs.getD j 0 * ys.getD j 0 := by
  intro xs
  induction xs with
  | nil => intro ys; simp
  | cons x xs ih =>
    intro ys
    cases ys with
    | nil => simp
    | cons y ys =>
      simp only [List.zip_cons_cons, List.map_cons, List.sum_cons, List.length_cons]
      rw [Finset.sum_range_succ']
      simp only [List.getD_cons_succ, List.getD_cons_zero]
      rw [ih ys]
      ring

theorem filterMap_resolve_snd_sublist {α : Type} (f : Int → Option α) :
    ∀ (l : List (Int × ℚ)),
      ((l.filterMap (fun p => (f p.1).map (fun m => (m, p.2)))).map Prod.snd).Sublist
        (l.map Prod.snd) := by
  intro l
  induction l with
  | nil => simp
  | cons p rest ih =>
    cases hf : f p.1 with
    | none => simpa [List.filterMap_cons, hf] using ih.cons p.2
    | some m => simpa [List.filterMap_cons, hf] using ih.cons₂ p.2

theorem eq_of_mem_nodup_keys {α : Type} :
    ∀ {l : List (Int × α)} {p q : Int × α}, (l.map Prod.fst).Nodup →
      p ∈ l → q ∈ l → p.1 = q.1 → p = q := by
  intro l
  induction l with
  | nil => intro p q _ hp; simp at hp
  | cons a rest ih =>
    intro p q hnd hp hq hk
    simp only [List.map_cons, List.nodup_cons] at hnd
    rcases List.mem_cons.mp hp with rfl | hp2
    · rcases List.mem_cons.mp hq with rfl | hq2
      · rfl
      · exact absurd (hk ▸ List.mem_map_of_mem Prod.fst hq2) hnd.1
    · rcases List.mem_cons.mp hq with rfl | hq2
      · exact absurd (hk ▸ List.mem_map_of_mem Prod.fst hp2) hnd.1
      · exact ih hnd.2 hp2 hq2 hk

theorem popGe_total : ∀ x y : Option ℚ, popGe x y = true ∨ popGe y x = true := by
  intro x y
  cases x with
  | none => cases y <;> simp [popGe]
  | some a =>
    cases y with
    | none => simp [popGe]
    | some b => simpa [popGe] using le_total b a

theorem popGe_trans : ∀ x y z : Option ℚ,
    popGe x y = true → popGe y z = true → popGe x z = true := by
  intro x y z hxy hyz
  cases x <;> cases y <;> cases z <;> simp [popGe] at *
  exact le_trans hyz hxy

theorem countVectorize_length {stop : List String} {docs : List String} {M : List Vec}
    (h : countVectorize stop docs = some M) : M.length = docs.length := by
  unfold countVectorize at h
  split at h
  · simp at h
  · rw [Option.some.injEq] at h
    rw [← h]
    simp

theorem recommend_cold_eq (V : Vectorizer) (r : ContentRecommender) (db : Db)
    (uid : Int) (limit : Nat) (h : userRatings db uid = []) :
    recommend_for_user V r db uid limit = some (r, popTopWithScore db limit) := by
  simp only [recommend_for_user, h]
  simp

theorem recommend_score_empty_eq (V : Vectorizer) (r : ContentRecommender) (db : Db)
    (uid : Int) (limit : Nat) (model : ContentRecommender)
    (hne : userRatings db uid ≠ [])
    (hm : ensure_model V r db = some model)
    (hs : model.scores_for_movies (likedIds db uid) (some (likedWeights db uid)) = some []) :
    recommend_for_user V r db uid limit = some (model, popTopWithScore db limit) := by
  simp only [recommend_for_user, hm, hs]
  rw [if_neg (by simpa using hne)]
  simp

theorem recommend_branch2_eq (V : Vectorizer) (r : ContentRecommender) (db : Db)
    (uid : Int) (limit : Nat) (model : ContentRecommender) (score_map : List (Int × ℚ))
    (hne : userRatings db uid ≠ [])
    (hm : ensure_model V r db = some model)
    (hs : model.scores_for_movies (likedIds db uid) (some (likedWeights db uid)) =
      some score_map)
    (hsm : score_map ≠ []) :
    recommend_for_user V r db uid limit =
      some (model, resolveTop db (blendScores db score_map) limit) := by
  simp only [recommend_for_user, hm, hs]
  rw [if_neg (by simpa using hne), if_neg (by simpa using hsm)]

theorem mem_blendScores {db : Db} {sm : List (Int × ℚ)} {p : Int × ℚ}
    (hp : p ∈ blendScores db sm) :
    ∃ e ∈ sm, p = (e.1, e.2 * (9 / 10) + (1 / 10) * ((dictGet (popMap db) e.1).getD 0)) := by
  have hperm := List.perm_insertionSort
    (fun a b : Int × ℚ => b.2 ≤ a.2)
    (sm.map (fun p =>
      (p.1, p.2 * (9 / 10) + (1 / 10) * ((dictGet (popMap db) p.1).getD 0))))
  have hp2 : p ∈ sm.map (fun p =>
      (p.1, p.2 * (9 / 10) + (1 / 10) * ((dictGet (popMap db) p.1).getD 0))) :=
    hperm.mem_iff.mp hp
  simp only [List.mem_map] at hp2
  obtain ⟨e, he, hpe⟩ := hp2
  exact ⟨e, he, hpe.symm⟩

theorem blendScores_keys_perm (db : Db) (sm : List (Int × ℚ)) :
    ((blendScores db sm).map Prod.fst).Perm (sm.map Prod.fst) := by
  have hperm := List.perm_insertionSort
    (fun a b : Int × ℚ => b.2 ≤ a.2)
    (sm.map (fun p =>
      (p.1, p.2 * (9 / 10) + (1 / 10) * ((dictGet (popMap db) p.1).getD 0))))
  have := hperm.map Prod.fst
  simpa [blendScores, Function.comp] using this

theorem blendScores_sorted (db : Db) (sm : List (Int × ℚ)) :
    List.Pairwise (fun a b : Int × ℚ => b.2 ≤ a.2) (blendScores db sm) := by
  haveI : IsTotal (Int × ℚ) (fun a b => b.2 ≤ a.2) := ⟨fun a b => le_total b.2 a.2⟩
  haveI : IsTrans (Int × ℚ) (fun a b => b.2 ≤ a.2) :=
    ⟨fun _ _ _ hab hbc => le_trans hbc hab⟩
  exact List.sorted_insertionSort _ _

theorem map_fst_filter_zip_sublist (q : Int × ℚ → Bool) (ids : List Int)
    (scores : List ℚ) (hlen : ids.length ≤ scores.length) :
    ((List.filter q (ids.zip scores)).map Prod.fst).Sublist ids := by
  have h1 : (List.filter q (ids.zip scores)).Sublist (ids.zip scores) :=
    List.filter_sublist _
  have h2 := h1.map Prod.fst
  rwa [List.map_fst_zip _ _ hlen] at h2

theorem scores_for_movies_keys_sublist
    (r : ContentRecommender) (liked : List Int) (weights : Option (List ℚ))
    (sm : List (Int × ℚ)) (h : r.scores_for_movies liked weights = some sm) :
    (sm.map Prod.fst).Sublist r.movie_ids := by
  rcases weights with _ | wlist
  all_goals simp only [ContentRecommender.scores_for_movies] at h
  all_goals repeat' split at h
  all_goals cases h
  all_goals try simp
  all_goals rename_i hlen
  all_goals
    exact map_fst_filter_zip_sublist _ r.movie_ids _
      (by simp only [List.length_map]; omega)

theorem mem_resolveTop {db : Db} {blended : List (Int × ℚ)} {limit : Nat}
    {q : Movie × ℚ} (hq : q ∈ resolveTop db blended limit) :
    ∃ p ∈ blended, q.2 = p.2 ∧ q.1.id = p.1 ∧ q.1 ∈ db.movies ∧
      p.1 ∈ ((blended.take limit).map (fun p => p.1)) := by
  have hq2 := List.mem_of_mem_take hq
  simp only [List.mem_filterMap] at hq2
  obtain ⟨p, hp, hres⟩ := hq2
  rcases hdg : dictGet ((db.movies.filter
      (fun m => (((blended.take limit).map (fun p => p.1)).contains m.id))).map
      (fun m => (m.id, m))) p.1 with _ | m
  · rw [hdg] at hres
    exact absurd hres (by simp)
  · rw [hdg] at hres
    have hqm : (m, p.2) = q := by simpa using hres
    have hq1 : q = (m, p.2) := hqm.symm
    subst hq1
    have hmem := dictGet_mem hdg
    simp only [List.mem_map] at hmem
    obtain ⟨m2, hm2, hpair⟩ := hmem
    obtain rfl : m2 = m := congrArg Prod.snd hpair
    have hmid := congrArg Prod.fst hpair
    have hfil := List.mem_filter.mp hm2
    refine ⟨p, hp, rfl, hmid, hfil.1, ?_⟩
    have hmid2 : m2.id = p.1 := by simpa using hmid
    have hcont := hfil.2
    rw [← hmid2]
    simpa using hcont

theorem scores_for_movies_eq (r : ContentRecommender) (M : List Vec)
    (liked : List Int) (weights : Option (List ℚ))
    (hM : r.tfidf_matrix = some M)
    (hne : presentIndices r.movie_ids liked ≠ [])
    (hbound : ∀ j ∈ presentIndices r.movie_ids liked, j < M.length)
    (hwlen : (effectiveWeights weights (presentIndices r.movie_ids liked).length).length =
      (presentIndices r.movie_ids liked).length)
    (hrows : r.movie_ids.length ≤ M.length) :
    r.scores_for_movies liked weights = some ((r.movie_ids.zip
      (M.map (fun row =>
        ((((presentIndices r.movie_ids liked).map
            (fun j => cosine_similarity row (M.getD j []))).zip
          ((effectiveWeights weights (presentIndices r.movie_ids liked).length).map
            (fun x => x / ((effectiveWeights weights
              (presentIndices r.movie_ids liked).length).sum + eps)))).map
          (fun p => p.1 * p.2)).sum))).filter
      (fun p => decide (p.1 ∉ liked))) := by
  obtain ⟨j0, hj0⟩ := List.exists_mem_of_ne_nil _ hne
  have hj0lt := presentIndices_lt hj0
  have hidsne : r.movie_ids ≠ [] := by
    intro hc
    rw [hc] at hj0lt
    simp at hj0lt
  have hany : ((presentIndices r.movie_ids liked).any
      (fun j => decide (M.length ≤ j))) = false := by
    rw [List.any_eq_false]
    intro j hj
    have := hbound j hj
    simp only [decide_eq_true_eq]
    omega
  have hnot : ¬ M.length < r.movie_ids.length := by omega
  rcases weights with _ | wlist
  · simp only [effectiveWeights, Option.getD] at hwlen ⊢
    simp only [ContentRecommender.scores_for_movies, hM]
    rw [if_neg (by simpa [List.isEmpty_eq_false] using hidsne),
      if_neg (by simpa [List.isEmpty_eq_false] using hne)]
    rw [if_neg (by simp [hany]), if_neg (by simp [hwlen]), if_neg hnot]
    simp only [List.map_map, Function.comp_def]
  · simp only [effectiveWeights, Option.getD] at hwlen ⊢
    simp only [ContentRecommender.scores_for_movies, hM]
    rw [if_neg (by simpa [List.isEmpty_eq_false] using hidsne),
      if_neg (by simpa [List.isEmpty_eq_false] using hne)]
    rw [if_neg (by simp [hany]), if_neg (by simp [hwlen]), if_neg hnot]
    simp only [List.map_map, Function.comp_def]

/-! ### Claims -/

/-- C1 (code bug): `scores_for_movies` is claimed never to raise, in
particular when only some of `liked_ids` appear in the model.  But the code
filters absent ids out of `indices` while leaving `weights` untouched, so with
an explicit weight list and a partially present `liked_ids` the matrix product
`sims @ w` receives mismatched shapes and numpy raises a `ValueError`.  Here
the model knows ids 1 and 2; liked ids are `[1, 99]` with weights `[5, 4]`,
and the call fails (`none`) instead of returning the claimed mapping. -/
theorem scores_for_movies_partial_presence_raises :
    ContentRecommender.scores_for_movies ⟨[1, 2], some [[1, 0], [0, 1]]⟩
      [1, 99] (some [5, 4]) = none := by decide

/-- C3: every identifier in `liked_ids` is absent from any mapping returned by
`scores_for_movies`, whatever the model state and weights. -/
theorem scores_for_movies_self_exclusion
    (r : ContentRecommender) (liked : List Int) (weights : Option (List ℚ))
    (sm : List (Int × ℚ)) (h : r.scores_for_movies liked weights = some sm) :
    ∀ p ∈ sm, p.1 ∉ liked := by
  intro p hp
  rcases weights with _ | wlist
  all_goals simp only [ContentRecommender.scores_for_movies] at h
  all_goals repeat' split at h
  all_goals cases h
  all_goals
    first
      | (simp only [List.mem_filter, decide_eq_true_eq] at hp
         exact hp.2)
      | simp at hp

/-- C3 witness: on a concrete fitted model with liked ids `[1, 99]` and
omitted weights, no returned key is a liked id. -/
theorem scores_for_movies_self_exclusion_witness :
    ((2 : Int), (0 : ℚ) / (1 + eps)).1 ∉ [(1 : Int), 99] := by
  have hcall :
      ContentRecommender.scores_for_movies ⟨[1, 2], some [[1, 0], [0, 1]]⟩ [1, 99] none =
        some [((2 : Int), (0 : ℚ) / (1 + eps))] := by
    simp [ContentRecommender.scores_for_movies, presentIndices, idToIndex, idToIndexAux,
      cosine_similarity, dotProd]
  exact scores_for_movies_self_exclusion _ _ _ _ hcall
    ((2 : Int), (0 : ℚ) / (1 + eps)) (List.mem_singleton.mpr rfl)

/-- C10: a cold-start request (user with zero ratings) returns the popularity
ranking and leaves the cached model exactly as it was — `ensure_model`/`fit`
are never reached, for every prior model state, including the never-fit
state. -/
theorem recommend_for_user_cold_start_frame
    (V : Vectorizer) (r : ContentRecommender) (db : Db) (uid : Int) (limit : Nat)
    (h : userRatings db uid = []) :
    recommend_for_user V r db uid limit = some (r, popTopWithScore db limit) := by
  unfold recommend_for_user
  simp [h]

/-- C10 witness: concrete database whose single rating belongs to user 3; a
request for user 7 returns the popularity ranking and the untouched
(never-fit) model state. -/
theorem recommend_for_user_cold_start_frame_witness :
    recommend_for_user (countVectorize []) initialRecommender
      ⟨[⟨1, some "Space War", some "Sci-Fi", none, none, none, some 5⟩],
        [⟨3, 1, 5⟩]⟩ 7 12 =
      some (initialRecommender,
        popTopWithScore
          ⟨[⟨1, some "Space War", some "Sci-Fi", none, none, none, some 5⟩],
            [⟨3, 1, 5⟩]⟩ 12) :=
  recommend_for_user_cold_start_frame (countVectorize []) initialRecommender
    ⟨[⟨1, some "Space War", some "Sci-Fi", none, none, none, some 5⟩], [⟨3, 1, 5⟩]⟩
    7 12 (by decide)

/-- C7: after a completed `fit`, the identifier list is exactly the input
items' ids in input order, and the document-term matrix is the vectorizer's
output on the corpus built row-by-row from the items, with one row per item;
a fit on the empty list always succeeds and leaves the explicit empty state
(no matrix, no identifiers).  Hypothesis `hV` is the vectorizer's contract:
`fit_transform` returns one row per input document. -/
theorem fit_rows_lockstep
    (V : Vectorizer) (r : ContentRecommender) (movies : List Movie)
    (hV : ∀ docs M, V docs = some M → M.length = docs.length) :
    (movies = [] → r.fit V movies = some ⟨[], none⟩) ∧
    (∀ rec2, r.fit V movies = some rec2 →
      rec2.movie_ids = movies.map (fun m => m.id) ∧
      (movies = [] → rec2.tfidf_matrix = none) ∧
      (movies ≠ [] → ∃ M, rec2.tfidf_matrix = some M ∧
        V (movies.map build_corpus_row) = some M ∧
        M.length = movies.length)) := by
  constructor
  · rintro rfl
    simp [ContentRecommender.fit]
  · intro rec2 h
    simp only [ContentRecommender.fit] at h
    by_cases hlen : (movies.map build_corpus_row).length = 0
    · have hmo : movies = [] := by simpa using hlen
      rw [if_pos hlen] at h
      cases h
      subst hmo
      exact ⟨rfl, fun _ => rfl, fun hne => absurd rfl hne⟩
    · have hmo : movies ≠ [] := by
        intro hc
        subst hc
        simp at hlen
      rw [if_neg hlen] at h
      cases hv : V (movies.map build_corpus_row) with
      | none => rw [hv] at h; cases h
      | some M =>
        rw [hv] at h
        cases h
        refine ⟨rfl, fun hc => absurd hc hmo, fun _ => ⟨M, ?_, ?_, ?_⟩⟩
        · rfl
        · rfl
        · rw [hV _ _ hv]
          simp

/-- C7 witness: fitting two concrete movies through the modelled vectorizer
yields ids `[1, 2]` in input order and a two-row matrix. -/
theorem fit_rows_lockstep_witness :
    ∃ rec2, ContentRecommender.fit (countVectorize []) initialRecommender
        [⟨1, some "Space War", some "Sci-Fi", none, none, none, some 5⟩,
          ⟨2, some "Space Battle", some "Sci-Fi", none, none, none, some 1⟩] =
        some rec2 ∧
      rec2.movie_ids = [1, 2] ∧ ∃ M, rec2.tfidf_matrix = some M ∧ M.length = 2 := by
  have hfit :
      ContentRecommender.fit (countVectorize []) initialRecommender
        [⟨1, some "Space War", some "Sci-Fi", none, none, none, some 5⟩,
          ⟨2, some "Space Battle", some "Sci-Fi", none, none, none, some 1⟩] =
        some ⟨[1, 2],
          some [[0, 0, 1, 1, 1, 1, 0, 1, 1, 1],
                [1, 1, 1, 1, 1, 1, 1, 0, 0, 0]]⟩ := by decide
  obtain ⟨hids, hrest⟩ :=
    (fit_rows_lockstep (countVectorize []) initialRecommender
      [⟨1, some "Space War", some "Sci-Fi", none, none, none, some 5⟩,
        ⟨2, some "Space Battle", some "Sci-Fi", none, none, none, some 1⟩]
      (fun _ _ hv => countVectorize_length hv)).2 _ hfit
  obtain ⟨M, hM, _, hMlen⟩ := hrest.2 (by decide)
  refine ⟨_, hfit, ?_, M, hM, ?_⟩
  · rw [hids]
    decide
  · rw [hMlen]
    decide

/-- C8 counterexample: with an empty catalog the first `ensure_model` call
refits (no model was ever fit) and caches the empty-state model, but that
state still has `tfidf_matrix = None`, so it still satisfies the refit
condition: a second call with the unchanged (zero) item count runs `fit`
again.  The claim that a refit occurs only when no model has ever been fit or
the item count changed is therefore false for the zero-count case — an
observable rebuild counter would increment on every call. -/
theorem ensure_model_empty_catalog_refits :
    ensure_model (countVectorize []) initialRecommender ⟨[], []⟩ =
      some ⟨[], none⟩ ∧
    needsRefit ⟨[], none⟩ ([] : List Movie) = true ∧
    ContentRecommender.fit (countVectorize []) ⟨[], none⟩ [] = some ⟨[], none⟩ := by
  decide

/-- C8 (amended): for a non-empty unchanged catalog, a model returned by a
successful `ensure_model` no longer satisfies the refit condition, and an
immediately repeated call returns the very same cached state without any
refit.  (With an empty catalog the cached matrix stays `None`, so every call
refits even though the state it produces is unchanged.) -/
theorem ensure_model_cached_no_refit
    (V : Vectorizer) (r : ContentRecommender) (db : Db)
    (model : ContentRecommender)
    (h : ensure_model V r db = some model) (hne : db.movies ≠ []) :
    needsRefit model db.movies = false ∧ ensure_model V model db = some model := by
  have hfalse : needsRefit model db.movies = false := by
    simp only [ensure_model] at h
    split at h
    · simp only [ContentRecommender.fit] at h
      by_cases hlen : (db.movies.map build_corpus_row).length = 0
      · exact absurd (by simpa using hlen) hne
      · rw [if_neg hlen] at h
        cases hv : V (db.movies.map build_corpus_row) with
        | none => rw [hv] at h; cases h
        | some M =>
          rw [hv] at h
          cases h
          simp [needsRefit]
    · cases h
      rename_i hcond
      simpa using hcond
  refine ⟨hfalse, ?_⟩
  simp only [ensure_model, hfalse]
  simp

/-- C8 witness: a cached model over one concrete movie is returned unchanged,
with the refit condition false, by a repeated `ensure_model` call. -/
theorem ensure_model_cached_no_refit_witness :
    needsRefit ⟨[1], some [[1, 1, 1, 1, 1, 1, 1]]⟩
      [⟨1, some "Space War", some "Sci-Fi", none, none, none, some 5⟩] = false ∧
    ensure_model (countVectorize []) ⟨[1], some [[1, 1, 1, 1, 1, 1, 1]]⟩
      ⟨[⟨1, some "Space War", some "Sci-Fi", none, none, none, some 5⟩], []⟩ =
      some ⟨[1], some [[1, 1, 1, 1, 1, 1, 1]]⟩ :=
  ensure_model_cached_no_refit (countVectorize []) initialRecommender
    ⟨[⟨1, some "Space War", some "Sci-Fi", none, none, none, some 5⟩], []⟩
    ⟨[1], some [[1, 1, 1, 1, 1, 1, 1]]⟩ (by decide) (by decide)

/-- C9 counterexample: a non-empty catalog whose single item has no textual
content.  The corpus is one empty document, the learned vocabulary is empty,
and sklearn's `fit_transform` raises `ValueError: empty vocabulary` — `fit`
fails instead of producing the all-zero row the claim promises. -/
theorem fit_all_empty_text_raises :
    ContentRecommender.fit (countVectorize []) initialRecommender
      [⟨1, some "", none, none, none, none, some 5⟩] = none := by decide

/-- C9 (amended): on a non-empty item list whose corpus yields a non-empty
vocabulary, `fit` through the vectorizer never fails, and every item with no
textual content (title, genres and overview all absent or empty) receives an
all-zero row in the resulting matrix. -/
theorem fit_zero_rows_for_textless
    (stop : List String) (r : ContentRecommender) (movies : List Movie)
    (hne : movies ≠ [])
    (hvocab : (vocabulary stop (movies.map build_corpus_row)).isEmpty = false) :
    ∃ rec2 M, r.fit (countVectorize stop) movies = some rec2 ∧
      rec2.tfidf_matrix = some M ∧ M.length = movies.length ∧
      ∀ i, (hi : i < movies.length) →
        orBlank (movies[i]).title = "" → orBlank (movies[i]).genres = "" →
        orBlank (movies[i]).overview = "" →
        ∀ x ∈ M.getD i [], x = 0 := by
  have hlen : ¬ (movies.map build_corpus_row).length = 0 := by
    simpa using hne
  have hcv : countVectorize stop (movies.map build_corpus_row) =
      some ((movies.map build_corpus_row).map (fun d =>
        (vocabulary stop (movies.map build_corpus_row)).map
          (fun t => (countOcc t (analyze stop d) : ℚ)))) := by
    unfold countVectorize
    rw [hvocab]
    simp
  refine ⟨⟨movies.map (fun m => m.id),
      some ((movies.map build_corpus_row).map (fun d =>
        (vocabulary stop (movies.map build_corpus_row)).map
          (fun t => (countOcc t (analyze stop d) : ℚ))))⟩,
      (movies.map build_corpus_row).map (fun d =>
        (vocabulary stop (movies.map build_corpus_row)).map
          (fun t => (countOcc t (analyze stop d) : ℚ))), ?_, rfl, ?_, ?_⟩
  · simp only [ContentRecommender.fit]
    rw [if_neg hlen, hcv]
  · simp
  · intro i hi h1 h2 h3 x hx
    have hdoc : build_corpus_row movies[i] = "  " := by
      unfold build_corpus_row
      rw [h1, h2, h3]
      decide
    have hanalyze : analyze stop "  " = [] := by
      have htok : tokenize "  " = [] := by decide
      simp [analyze, htok]
    have hrow : (((movies.map build_corpus_row).map (fun d =>
        (vocabulary stop (movies.map build_corpus_row)).map
          (fun t => (countOcc t (analyze stop d) : ℚ)))).getD i []) =
        (vocabulary stop (movies.map build_corpus_row)).map
          (fun t => (countOcc t (analyze stop (build_corpus_row movies[i])) : ℚ)) := by
      rw [List.getD_eq_getElem _ _ (by simpa using hi)]
      simp
    rw [hrow, hdoc] at hx
    simp only [List.mem_map] at hx
    obtain ⟨t, _, hxval⟩ := hx
    rw [hanalyze] at hxval
    have hx0 : x = ((countOcc t [] : ℕ) : ℚ) := hxval.symm
    simpa [countOcc] using hx0

/-- C9 witness: a two-item catalog where the first item carries text and the
second has none; `fit` succeeds and the second row is all zeros. -/
theorem fit_zero_rows_for_textless_witness :
    ∃ rec2 M, ContentRecommender.fit (countVectorize []) initialRecommender
        [⟨1, some "Space War", some "Sci-Fi", none, none, none, some 5⟩,
          ⟨2, some "", none, none, none, none, some 1⟩] = some rec2 ∧
      rec2.tfidf_matrix = some M ∧ M.length = 2 ∧
      ∀ x ∈ M.getD 1 [], x = 0 := by
  obtain ⟨rec2, M, hf, hM, hlen, hz⟩ :=
    fit_zero_rows_for_textless [] initialRecommender
      [⟨1, some "Space War", some "Sci-Fi", none, none, none, some 5⟩,
        ⟨2, some "", none, none, none, none, some 1⟩]
      (by decide) (by decide)
  exact ⟨rec2, M, hf, hM, hlen,
    hz 1 (by decide) (by decide) (by decide) (by decide)⟩

/-- C4: with zero ratings for the user — and likewise when the similarity
score map comes back empty — `recommend_for_user` returns the popularity
branch: the top-`limit` movies of the catalog ordered by popularity descending
(SQL `NULL` ordered last), each paired with its popularity as the score
(`0.0` when absent).  At most `limit` pairs are returned, and the zero-ratings
branch returns before `ensure_model` is reached, so no similarity computation
happens and the cached state comes back unchanged. -/
theorem recommend_for_user_popularity_fallback
    (V : Vectorizer) (r : ContentRecommender) (db : Db) (uid : Int) (limit : Nat) :
    ((userRatings db uid = [] →
        recommend_for_user V r db uid limit = some (r, popTopWithScore db limit)) ∧
      (∀ model, userRatings db uid ≠ [] → ensure_model V r db = some model →
        model.scores_for_movies (likedIds db uid) (some (likedWeights db uid)) =
          some [] →
        recommend_for_user V r db uid limit = some (model, popTopWithScore db limit))) ∧
    (popTopWithScore db limit).length ≤ limit ∧
    List.Pairwise (fun p q : Movie × ℚ => popGe p.1.popularity q.1.popularity = true)
      (popTopWithScore db limit) ∧
    ∀ p ∈ popTopWithScore db limit, p.2 = p.1.popularity.getD 0 := by
  refine ⟨⟨fun h => recommend_cold_eq V r db uid limit h,
      fun model hne hm hs => recommend_score_empty_eq V r db uid limit model hne hm hs⟩,
      ?_, ?_, ?_⟩
  · simp only [popTopWithScore, List.length_map]
    exact List.length_take_le _ _
  · have hsorted : List.Pairwise
        (fun a b : Movie => popGe a.popularity b.popularity = true)
        (popularityRanked db) := by
      haveI : IsTotal Movie (fun a b : Movie => popGe a.popularity b.popularity = true) :=
        ⟨fun a b => popGe_total _ _⟩
      haveI : IsTrans Movie (fun a b : Movie => popGe a.popularity b.popularity = true) :=
        ⟨fun a b c => popGe_trans _ _ _⟩
      exact List.sorted_insertionSort _ _
    have htake := List.Pairwise.sublist (List.take_sublist limit (popularityRanked db))
      hsorted
    simp only [popTopWithScore]
    rw [List.pairwise_map]
    exact htake
  · intro p hp
    simp only [popTopWithScore, List.mem_map] at hp
    obtain ⟨m, _, hmp⟩ := hp
    rw [← hmp]

/-- C4 witness: branch 1 on a two-movie catalog with no ratings for user 7,
and branch 3 with a stale cached model (id 5) that misses the rated movie, so
the score map comes back empty and the popularity ranking is returned with
the model unchanged. -/
theorem recommend_for_user_popularity_fallback_witness :
    recommend_for_user (countVectorize []) initialRecommender
      ⟨[mvSpaceWar, mvSpaceBattle], []⟩ 7 1 =
      some (initialRecommender, popTopWithScore ⟨[mvSpaceWar, mvSpaceBattle], []⟩ 1) ∧
    recommend_for_user (countVectorize []) ⟨[5], some [[1]]⟩
      ⟨[mvSpaceWar], [⟨7, 1, 5⟩]⟩ 7 3 =
      some (⟨[5], some [[1]]⟩, popTopWithScore ⟨[mvSpaceWar], [⟨7, 1, 5⟩]⟩ 3) := by
  constructor
  · exact ((recommend_for_user_popularity_fallback (countVectorize [])
      initialRecommender ⟨[mvSpaceWar, mvSpaceBattle], []⟩ 7 1).1).1 (by decide)
  · exact ((recommend_for_user_popularity_fallback (countVectorize [])
      ⟨[5], some [[1]]⟩ ⟨[mvSpaceWar], [⟨7, 1, 5⟩]⟩ 7 3).1).2
      ⟨[5], some [[1]]⟩ (by decide) (by decide) (by decide)

/-- C5: in the branch where the user has ratings and the score map is
non-empty, every returned pair's score is exactly
`0.9 × similarity + 0.1 × popularity`, where the similarity is that item's
entry in the score map and the popularity defaults to `0` when the item has
none recorded. -/
theorem recommend_for_user_blend_formula
    (V : Vectorizer) (r : ContentRecommender) (db : Db) (uid : Int) (limit : Nat)
    (model : ContentRecommender) (score_map : List (Int × ℚ))
    (hne : userRatings db uid ≠ [])
    (hm : ensure_model V r db = some model)
    (hs : model.scores_for_movies (likedIds db uid) (some (likedWeights db uid)) =
      some score_map)
    (hsm : score_map ≠ []) :
    ∃ out, recommend_for_user V r db uid limit = some (model, out) ∧
      ∀ q ∈ out, ∃ s, (q.1.id, s) ∈ score_map ∧
        q.2 = s * (9 / 10) + (1 / 10) * ((dictGet (popMap db) q.1.id).getD 0) := by
  refine ⟨resolveTop db (blendScores db score_map) limit,
    recommend_branch2_eq V r db uid limit model score_map hne hm hs hsm, ?_⟩
  intro q hq
  obtain ⟨p, hp, hq2, hqid, _, _⟩ := mem_resolveTop hq
  obtain ⟨e, he, hpe⟩ := mem_blendScores hp
  refine ⟨e.2, ?_, ?_⟩
  · rw [hqid, hpe]
    simpa using he
  · rw [hq2, hqid, hpe]

/-- C6: a branch-2 result never raises during resolution, has at most `limit`
pairs, is sorted by blended score descending, and every returned pair is an
entry of the top-`limit` prefix of the sorted blended ranking — an identifier
that failed to resolve is dropped without promoting anything from beyond the
top `limit`.  The `Nodup` hypothesis is the primary-key uniqueness of the
movie ids the model was fit on. -/
theorem recommend_for_user_truncation_sorted
    (V : Vectorizer) (r : ContentRecommender) (db : Db) (uid : Int) (limit : Nat)
    (model : ContentRecommender) (score_map : List (Int × ℚ))
    (hne : userRatings db uid ≠ [])
    (hm : ensure_model V r db = some model)
    (hs : model.scores_for_movies (likedIds db uid) (some (likedWeights db uid)) =
      some score_map)
    (hsm : score_map ≠ [])
    (hnodup : model.movie_ids.Nodup) :
    ∃ out, recommend_for_user V r db uid limit = some (model, out) ∧
      out.length ≤ limit ∧
      List.Pairwise (fun p q : Movie × ℚ => q.2 ≤ p.2) out ∧
      ∀ q ∈ out, (q.1.id, q.2) ∈ (blendScores db score_map).take limit := by
  refine ⟨resolveTop db (blendScores db score_map) limit,
    recommend_branch2_eq V r db uid limit model score_map hne hm hs hsm, ?_, ?_, ?_⟩
  · simp only [resolveTop]
    exact List.length_take_le _ _
  · have hsorted := blendScores_sorted db score_map
    have hsnd : List.Pairwise (fun x y : ℚ => y ≤ x)
        ((blendScores db score_map).map Prod.snd) := by
      rw [List.pairwise_map]
      exact hsorted
    have hsub : ((resolveTop db (blendScores db score_map) limit).map Prod.snd).Sublist
        ((blendScores db score_map).map Prod.snd) := by
      simp only [resolveTop]
      exact List.Sublist.trans ((List.take_sublist _ _).map Prod.snd)
        (filterMap_resolve_snd_sublist _ _)
    have hout := List.Pairwise.sublist hsub hsnd
    rw [List.pairwise_map] at hout
    exact hout
  · intro q hq
    obtain ⟨p, hp, hq2, hqid, _, htop⟩ := mem_resolveTop hq
    have hkeys : ((blendScores db score_map).map Prod.fst).Nodup := by
      have h1 : (score_map.map Prod.fst).Nodup :=
        List.Nodup.sublist (scores_for_movies_keys_sublist model _ _ _ hs) hnodup
      exact ((blendScores_keys_perm db score_map).nodup_iff).mpr h1
    simp only [List.mem_map] at htop
    obtain ⟨p2, hp2, hkey⟩ := htop
    have hp2b : p2 ∈ blendScores db score_map := List.mem_of_mem_take hp2
    have hpp : p = p2 := eq_of_mem_nodup_keys hkeys hp hp2b hkey.symm
    have hqp : (q.1.id, q.2) = p := by
      rw [hqid, hq2]
    rw [hqp, hpp]
    exact hp2

/-- C5 witness: a concrete branch-2 run — user 7 rated movie 1, the model is
current, the score map is `smBranch2` — where every returned pair's score is
the 90/10 blend of its similarity and popularity. -/
theorem recommend_for_user_blend_formula_witness :
    ∃ out, recommend_for_user (countVectorize []) recBranch2 dbBranch2 7 2 =
      some (recBranch2, out) ∧
      ∀ q ∈ out, ∃ s, (q.1.id, s) ∈ smBranch2 ∧
        q.2 = s * (9 / 10) + (1 / 10) * ((dictGet (popMap dbBranch2) q.1.id).getD 0) := by
  refine recommend_for_user_blend_formula (countVectorize []) recBranch2 dbBranch2 7 2
    recBranch2 smBranch2 (by decide) (by decide) ?_ (by decide)
  have h1 : likedIds dbBranch2 7 = [1] := by decide
  have h2 : likedWeights dbBranch2 7 = [5] := by decide
  rw [h1, h2]
  simp [ContentRecommender.scores_for_movies, recBranch2, presentIndices, idToIndex,
    idToIndexAux, cosine_similarity, dotProd, smBranch2, eps]
  norm_num

/-- C6 witness: the same concrete branch-2 run with `limit = 2`; the result
respects the bound, the descending order and the top-`limit` membership. -/
theorem recommend_for_user_truncation_sorted_witness :
    ∃ out, recommend_for_user (countVectorize []) recBranch2 dbBranch2 7 2 =
      some (recBranch2, out) ∧
      out.length ≤ 2 ∧
      List.Pairwise (fun p q : Movie × ℚ => q.2 ≤ p.2) out ∧
      ∀ q ∈ out, (q.1.id, q.2) ∈ (blendScores dbBranch2 smBranch2).take 2 := by
  refine recommend_for_user_truncation_sorted (countVectorize []) recBranch2 dbBranch2 7 2
    recBranch2 smBranch2 (by decide) (by decide) ?_ (by decide) (by decide)
  have h1 : likedIds dbBranch2 7 = [1] := by decide
  have h2 : likedWeights dbBranch2 7 = [5] := by decide
  rw [h1, h2]
  simp [ContentRecommender.scores_for_movies, recBranch2, presentIndices, idToIndex,
    idToIndexAux, cosine_similarity, dotProd, smBranch2, eps]
  norm_num


/-- C2 counterexample: the claim quantifies over every liked list with at
least one id present in the model and a weights list of the same length as
`liked_ids`, but when another liked id is absent from the model the call hits
the shape-mismatch `ValueError` (see C1) and computes no scores at all: model
over ids 1 and 2, liked `[2, 99]`, weights `[1, 1]` — the result is an
exception (`none`), not the claimed weighted-average mapping. -/
theorem scores_for_movies_weighted_partial_counterexample :
    ContentRecommender.scores_for_movies ⟨[1, 2], some [[1, 0], [0, 1]]⟩
      [2, 99] (some [1, 1]) = none := by decide

/-- C2 (amended): for a fit, non-empty model and a liked list with at least
one present id, when `weights` is omitted or supplied with exactly one entry
per PRESENT liked id (with absent liked ids and an explicit full-length
weights list, the call instead fails — see the counterexample), the call
succeeds and the returned score of every catalog item outside `liked_ids` is
the spec's weighted average: raw weights default to 1.0 each, are normalized
by their sum plus `eps` (so an all-zero list divides by `eps`, never by
zero), and the score is the weighted sum of the per-liked-item cosine
similarities (`specScore`) — not a max and not a sum of raw similarities. -/
theorem scores_for_movies_weighted_average
    (r : ContentRecommender) (M : List Vec) (liked : List Int)
    (weights : Option (List ℚ))
    (hM : r.tfidf_matrix = some M) (hlen : r.movie_ids.length = M.length)
    (hpresent : presentIndices r.movie_ids liked ≠ [])
    (hw : ∀ ws, weights = some ws →
      ws.length = (presentIndices r.movie_ids liked).length) :
    ∃ sm, r.scores_for_movies liked weights = some sm ∧
      ∀ i, i < r.movie_ids.length → r.movie_ids.getD i 0 ∉ liked →
        (r.movie_ids.getD i 0,
          specScore M (presentIndices r.movie_ids liked)
            (effectiveWeights weights (presentIndices r.movie_ids liked).length) i) ∈ sm := by
  have hbound : ∀ j ∈ presentIndices r.movie_ids liked, j < M.length := by
    intro j hj
    have := presentIndices_lt hj
    omega
  have hwlen : (effectiveWeights weights
      (presentIndices r.movie_ids liked).length).length =
      (presentIndices r.movie_ids liked).length := by
    rcases weights with _ | wlist
    · simp [effectiveWeights]
    · simpa [effectiveWeights] using hw wlist rfl
  have heq := scores_for_movies_eq r M liked weights hM hpresent hbound hwlen
    (le_of_eq hlen)
  refine ⟨_, heq, ?_⟩
  intro i hi hnl
  have hiM : i < M.length := by omega
  have hizip : i < (r.movie_ids.zip (M.map (fun row =>
      ((((presentIndices r.movie_ids liked).map
          (fun j => cosine_similarity row (M.getD j []))).zip
        ((effectiveWeights weights (presentIndices r.movie_ids liked).length).map
          (fun x => x / ((effectiveWeights weights
            (presentIndices r.movie_ids liked).length).sum + eps)))).map
        (fun p => p.1 * p.2)).sum))).length := by
    rw [List.length_zip, List.length_map]
    omega
  rw [List.mem_filter]
  constructor
  · have hpair : (r.movie_ids.getD i 0,
        specScore M (presentIndices r.movie_ids liked)
          (effectiveWeights weights (presentIndices r.movie_ids liked).length) i) =
        (r.movie_ids.zip (M.map (fun row =>
          ((((presentIndices r.movie_ids liked).map
              (fun j => cosine_similarity row (M.getD j []))).zip
            ((effectiveWeights weights (presentIndices r.movie_ids liked).length).map
              (fun x => x / ((effectiveWeights weights
                (presentIndices r.movie_ids liked).length).sum + eps)))).map
            (fun p => p.1 * p.2)).sum)))[i] := by
      rw [List.getElem_zip, List.getElem_map]
      have h1 : r.movie_ids.getD i 0 = r.movie_ids[i] :=
        List.getD_eq_getElem r.movie_ids 0 hi
      rw [h1]
      have h2 : ((((presentIndices r.movie_ids liked).map
          (fun j => cosine_similarity M[i] (M.getD j []))).zip
        ((effectiveWeights weights (presentIndices r.movie_ids liked).length).map
          (fun x => x / ((effectiveWeights weights
            (presentIndices r.movie_ids liked).length).sum + eps)))).map
        (fun p => p.1 * p.2)).sum =
          specScore M (presentIndices r.movie_ids liked)
            (effectiveWeights weights (presentIndices r.movie_ids liked).length) i := by
        rw [sum_zip_mul, List.length_map]
        unfold specScore
        apply Finset.sum_congr rfl
        intro j hj
        rw [Finset.mem_range] at hj
        have e1 : (((presentIndices r.movie_ids liked).map
            (fun t => cosine_similarity M[i] (M.getD t []))).getD j 0) =
            cosine_similarity M[i]
              (M.getD ((presentIndices r.movie_ids liked).getD j 0) []) := by
          rw [List.getD_eq_getElem _ _ (by rw [List.length_map]; exact hj),
            List.getElem_map, List.getD_eq_getElem _ _ hj]
        have e2 : (((effectiveWeights weights
            (presentIndices r.movie_ids liked).length).map
            (fun x => x / ((effectiveWeights weights
              (presentIndices r.movie_ids liked).length).sum + eps))).getD j 0) =
            (effectiveWeights weights
              (presentIndices r.movie_ids liked).length).getD j 0 /
              ((effectiveWeights weights
                (presentIndices r.movie_ids liked).length).sum + eps) := by
          rw [List.getD_eq_getElem _ _ (by rw [List.length_map, hwlen]; exact hj),
            List.getElem_map, List.getD_eq_getElem _ _ (by rw [hwlen]; exact hj)]
        rw [e1, e2, List.getD_eq_getElem M [] hiM]
        ring
      rw [h2]
    rw [hpair]
    exact List.getElem_mem hizip
  · simpa using hnl


/-- C2 witness: a concrete model over ids 1 and 2, liked id 1, weights
omitted; catalog item 2 receives exactly the weighted-average score of the
amended claim. -/
theorem scores_for_movies_weighted_average_witness :
    ∃ sm, ContentRecommender.scores_for_movies ⟨[1, 2], some [[1, 0], [0, 1]]⟩
        [1] none = some sm ∧
      ((2 : Int), specScore [[1, 0], [0, 1]] (presentIndices [1, 2] [1])
        (effectiveWeights none (presentIndices [1, 2] [1]).length) 1) ∈ sm := by
  obtain ⟨sm, h1, h2⟩ := scores_for_movies_weighted_average
    ⟨[1, 2], some [[1, 0], [0, 1]]⟩ [[1, 0], [0, 1]] [1] none rfl rfl
    (by decide) (fun ws hws => by cases hws)
  exact ⟨sm, h1, by simpa using h2 1 (by decide) (by decide)⟩

end RecSys
